import Mathlib

-- Batteries marks the rational arithmetic operations irreducible, which
-- blocks elaborator-side evaluation of concrete instances; restore the
-- default reducibility (the kernel is unaffected either way).
set_option allowUnsafeReducibility true in
attribute [semireducible] Rat.add Rat.mul Rat.sub Rat.inv

/-!
Verification of highway_merge.py (NKAmapper/highway_merge).

The program is a batch conflation engine for two road networks (OSM and
NVDB).  This file gives a shallow embedding of its core computations
into Lean:

* Coordinates are rational numbers.  The source calls the transcendental
  primitives math.radians, math.degrees, math.cos, math.sqrt; the
  embedding is parametric in those four primitives (structure GeoOps)
  and every other arithmetic step is translated literally over ℚ.
  Theorems quantify over the primitives, so they hold in particular for
  the real-valued instantiation; witnesses instantiate them with simple
  computable functions so that concrete runs can be evaluated by decide.
* Python dicts keyed by element id become functions Nat → Option _
  or association lists; the global node table becomes a total map
  Env : Nat → Pt (the program only dereferences ids of loaded nodes).
* The mutable matching state of merge_highways becomes explicit state
  passing through a fold over the ways.
-/

namespace HighwayMerge

/-- The four numeric primitives the source takes from the math module
(math.radians, math.degrees, math.cos, math.sqrt).  The embedding is
parametric in them; all remaining arithmetic is exact over ℚ. -/
structure GeoOps where
  radians : ℚ → ℚ
  degrees : ℚ → ℚ
  cos : ℚ → ℚ
  sqrt : ℚ → ℚ

/-- A node's coordinates (the 'lat'/'lon' fields of the node dict). -/
structure Pt where
  lat : ℚ
  lon : ℚ
deriving DecidableEq

/-- The global `nodes` table: node id to coordinates.  The program only
looks up ids of nodes present in the table, so a total map suffices. -/
def Env : Type := Nat → Pt

-- Parameters for matching (module-level constants of the source).
def margin : ℚ := 15
def margin_new : ℚ := 8
def margin_tag : ℚ := 5
def margin_offset : ℚ := 5
def match_factor : ℚ := 3/10
def new_factor : ℚ := 6/10
def min_nodes : Nat := 2
def merge_all : Bool := false

def avoid_highway : List String :=
  ["path", "bus_stop", "rest_area", "platform", "construction", "proposed"]

def pedestrian_highway : List String := ["footway", "cycleway"]

def state_highway : List String :=
  ["motorway", "trunk", "primary", "secondary", "motorway_link", "trunk_link",
   "primary_link", "secondary_link"]

/-- `distance`: equirectangular approximation of the distance between two
coordinates, in meters (source lines 163-168). -/
def distance (ops : GeoOps) (n1_lat n1_lon n2_lat n2_lon : ℚ) : ℚ :=
  let lon1 := ops.radians n1_lon
  let lat1 := ops.radians n1_lat
  let lon2 := ops.radians n2_lon
  let lat2 := ops.radians n2_lat
  let x := (lon2 - lon1) * ops.cos ((1/2) * (lat2 + lat1))
  let y := lat2 - lat1
  6371000 * ops.sqrt (x * x + y * y)

/-- `line_distance`: closest distance from point p3 to the segment
[s1, s2] (source lines 175-220).  Returns (lat, lon, distance) of the
projection.  The source also binds unused locals A and B; they are
omitted.  The final division x4 / cos(y4) is rational division (total);
the Python float cosine is never exactly zero there. -/
def line_distance (ops : GeoOps)
    (s1_lat s1_lon s2_lat s2_lon p3_lat p3_lon : ℚ) : ℚ × ℚ × ℚ :=
  let x1 := ops.radians s1_lon
  let y1 := ops.radians s1_lat
  let x2 := ops.radians s2_lon
  let y2 := ops.radians s2_lat
  let x3 := ops.radians p3_lon
  let y3 := ops.radians p3_lat
  -- Simplified reprojection of latitude
  let x1 := x1 * ops.cos y1
  let x2 := x2 * ops.cos y2
  let x3 := x3 * ops.cos y3
  let dx := x2 - x1
  let dy := y2 - y1
  let dot := (x3 - x1) * dx + (y3 - y1) * dy
  let len_sq := dx * dx + dy * dy
  let param := if len_sq ≠ 0 then dot / len_sq else -1
  let x4 := if param < 0 then x1 else if param > 1 then x2 else x1 + param * dx
  let y4 := if param < 0 then y1 else if param > 1 then y2 else y1 + param * dy
  let x := x4 - x3
  let y := y4 - y3
  let dist := 6371000 * ops.sqrt (x * x + y * y)
  -- Project back to longitude/latitude
  let x4 := x4 / ops.cos y4
  (ops.degrees y4, ops.degrees x4, dist)

/-- `crossing_lines`: two-segment intersection test (source lines
228-256).  Segments are given by their two endpoint nodes.  The float
literal 0.0000000001 becomes the exact rational 1/10^10. -/
def crossing_lines (s1 s2 : Pt × Pt) : Bool :=
  let d1x := s1.2.lon - s1.1.lon
  let d1y := s1.2.lat - s1.1.lat
  let d2x := s2.2.lon - s2.1.lon
  let d2y := s2.2.lat - s2.1.lat
  let D := d1x * d2y - d1y * d2x
  if |D| < 1 / 10000000000 then false  -- s1 and s2 are parallel
  else
    let A := s1.1.lat - s2.1.lat
    let B := s1.1.lon - s2.1.lon
    let r1 := (A * d2x - B * d2y) / D
    let r2 := (A * d1x - B * d1y) / D
    if r1 < 0 ∨ r1 > 1 ∨ r2 < 0 ∨ r2 > 1 then false
    else true

/-- Membership test `way['highway'] in lst` where the highway value may be
Python None (here: Option.none, which is in no list of strings). -/
def optIn (h : Option String) (l : List String) : Bool :=
  match h with
  | some s => l.contains s
  | none => false

/-- The per-way record built by load_xml (source lines 415-429): the fields
the conflation engine reads.  The bounding-box fields are stored already
expanded by the margin, as in the source.  Fields the modeled code paths
never touch (xml, ref, avoid_tag, relations) are omitted. -/
structure Way where
  highway : Option String
  incomplete : Bool
  min_lat : ℚ
  max_lat : ℚ
  min_lon : ℚ
  max_lon : ℚ
  length : ℚ
  nodes : List Nat
  tags : List (String × String)
deriving DecidableEq

/-- `way_length` (source lines 528-540): sum of pairwise distances along
the node sequence. -/
def way_length (ops : GeoOps) (env : Env) (way_nodes : List Nat) : ℚ :=
  if 1 < way_nodes.length then
    (way_nodes.zip way_nodes.tail).foldl
      (fun acc p =>
        acc + distance ops (env p.1).lat (env p.1).lon (env p.2).lat (env p.2).lon)
      0
  else 0

/-- `partial_way_length` (source lines 547-561): length of the part of the
way spanned by the nodes whose indices are listed in match_index.  (The
name avoids the reserved word of the source's name.) -/
def part_way_length (ops : GeoOps) (env : Env)
    (way_nodes : List Nat) (match_index : List Nat) : ℚ :=
  let match_nodes := match_index.map (fun i => way_nodes.getD i 0)
  if 1 < way_nodes.length ∧ 1 < match_nodes.length then
    (way_nodes.zip way_nodes.tail).foldl
      (fun acc p =>
        if p.1 ∈ match_nodes ∧ p.2 ∈ match_nodes then
          acc + distance ops (env p.1).lat (env p.1).lon (env p.2).lat (env p.2).lon
        else acc)
      0
  else 0

/-- Inner loop of match_ways (source lines 579-599): minimum line_distance
from node1 to the segments of way2, starting from the margin (so the
result is below the margin exactly when some segment is closer). -/
def minNodeDistance (ops : GeoOps) (env : Env) (margin : ℚ)
    (way2_nodes : List Nat) (node1 : Nat) : ℚ :=
  (way2_nodes.zip way2_nodes.tail).foldl
    (fun acc p =>
      let nd := (line_distance ops (env p.1).lat (env p.1).lon
                  (env p.2).lat (env p.2).lon (env node1).lat (env node1).lon).2.2
      if nd < acc then nd else acc)
    margin

/-- The scan of way1's node sub-range (source lines 578-607): for each
scanned node record (index into way1.nodes, minimum distance) when the
minimum distance is under the margin. -/
def matchScan (ops : GeoOps) (env : Env) (way1 way2 : Way)
    (start_node end_node : Nat) (margin : ℚ) : List (Nat × ℚ) :=
  (((way1.nodes.drop start_node).take (end_node + 1 - start_node)).enum).filterMap
    (fun p =>
      let d := minNodeDistance ops env margin way2.nodes p.2
      if d < margin then some (p.1 + start_node, d) else none)

/-- One direction of the end-trimming while loop (source lines 625-632):
pop leading entries whose distance exceeds half the margin, stopping when
the accumulated popped length passes the margin or one entry would
remain.  test_nodes holds indices into way1's node list. -/
def trimLoop (ops : GeoOps) (env : Env) (margin : ℚ) (way1_nodes : List Nat) :
    ℚ → List Nat → List ℚ → List Nat × List ℚ
  | _, test_nodes, [] => (test_nodes, [])
  | end_length, test_nodes, d0 :: rest =>
      if (1/2) * margin < d0 ∧ rest ≠ [] then
        let nd := env (way1_nodes.getD (test_nodes.getD 1 0) 0)
        let last_nd := env (way1_nodes.getD (test_nodes.getD 0 0) 0)
        let el := end_length + distance ops last_nd.lat last_nd.lon nd.lat nd.lon
        if margin < el then (test_nodes, d0 :: rest)
        else trimLoop ops env margin way1_nodes el test_nodes.tail rest
      else (test_nodes, d0 :: rest)

/-- The `for backward in [False, True]` loop of match_ways (source lines
614-636).  Exactly as in the source, each iteration rebinds test_nodes /
test_distances from the original matched lists, so the first (forward)
pass is computed and then discarded; only the backward pass's result
survives the loop. -/
def trimBoth (ops : GeoOps) (env : Env) (margin : ℚ) (way1_nodes : List Nat)
    (match_nodes : List Nat) (match_distances : List ℚ) : List Nat × List ℚ :=
  [false, true].foldl
    (fun _ backward =>
      let test_nodes := if backward then match_nodes.reverse else match_nodes
      let test_distances := if backward then match_distances.reverse else match_distances
      let t := trimLoop ops env margin way1_nodes 0 test_nodes test_distances
      if backward then (t.1.reverse, t.2.reverse) else t)
    (match_nodes, match_distances)

/-- The end-trimming phase of match_ways (source lines 614-642): when
enabled and at least one node matched, run the two trim passes and adopt
the outcome if the matched node list changed. -/
def trimPhase (ops : GeoOps) (env : Env) (margin : ℚ) (way1_nodes : List Nat)
    (trim_end : Bool) (match_nodes : List Nat) (match_distances : List ℚ) :
    List Nat × List ℚ :=
  if trim_end = true ∧ 0 < match_nodes.length then
    let t := trimBoth ops env margin way1_nodes match_nodes match_distances
    if t.1 ≠ match_nodes then t else (match_nodes, match_distances)
  else (match_nodes, match_distances)

/-- `match_ways` (source lines 569-652): compare the sub-range
[start_node, end_node] of way1 against way2; return the average distance
of the matched nodes (None when no node matched) and the list of matched
node indices. -/
def match_ways (ops : GeoOps) (env : Env) (way1 way2 : Way)
    (start_node end_node : Nat) (margin : ℚ) (trim_end : Bool) :
    Option ℚ × List Nat :=
  let matched := matchScan ops env way1 way2 start_node end_node margin
  let trimmed := trimPhase ops env margin way1.nodes trim_end
    (matched.map Prod.fst) (matched.map Prod.snd)
  if 0 < trimmed.1.length then
    (some (trimmed.2.sum / (trimmed.1.length : ℚ)), trimmed.1)
  else (none, trimmed.1)

/-- `d < b` on an optional distance.  In the source the comparison is
written on a possibly-None value but is always short-circuited behind a
matched-node count check that forces the value to be a number. -/
def ltOpt (d : Option ℚ) (b : ℚ) : Bool :=
  match d with
  | some x => decide (x < b)
  | none => false

/-- Candidate pre-filter of merge_highways pass 1 (source lines 683-695):
overlapping expanded bounding boxes, compatible relative lengths, no
pedestrian/vehicle mix, no trunk-class/local-class mix.  True exactly
when the source falls through to the match_ways computation. -/
def candidateFilter (osm_way nvdb_way : Way) : Bool :=
  if nvdb_way.min_lat ≤ osm_way.max_lat ∧ nvdb_way.max_lat ≥ osm_way.min_lat ∧
      nvdb_way.min_lon ≤ osm_way.max_lon ∧ nvdb_way.max_lon ≥ osm_way.min_lon ∧
      osm_way.length > match_factor * nvdb_way.length ∧
      nvdb_way.length > match_factor * osm_way.length then
    -- Avoid mixing pedestrian and car highways
    if optIn nvdb_way.highway pedestrian_highway = true ∧
        optIn osm_way.highway (pedestrian_highway ++ ["track"]) = false ∨
        optIn nvdb_way.highway pedestrian_highway = false ∧
        optIn osm_way.highway pedestrian_highway = true then false
    -- Avoid mixing trunk etc with lower highway classes
    else if optIn nvdb_way.highway state_highway = true ∧
        optIn osm_way.highway (state_highway ++ ["tertiary"]) = false ∨
        optIn osm_way.highway state_highway = true ∧
        optIn nvdb_way.highway (state_highway ++ ["road", "tertiary"]) = false then false
    else true
  else false

/-- Body of the candidate loop once the pre-filter passed (source lines
697-708): forward match, then the reverse match, recording the candidate
id and its forward average distance when both succeed. -/
def findBestInner (ops : GeoOps) (env : Env) (osm_way : Way)
    (acc : Option Nat × ℚ) (cand : Nat × Way) : Option Nat × ℚ :=
  let nvdb_way := cand.2
  let fm := match_ways ops env nvdb_way osm_way 0 (nvdb_way.nodes.length - 1) margin false
  if min_nodes ≤ fm.2.length ∧ ltOpt fm.1 acc.2 = true ∧
      match_factor * nvdb_way.length < part_way_length ops env nvdb_way.nodes fm.2 then
    let rm := match_ways ops env osm_way nvdb_way 0 (osm_way.nodes.length - 1) margin false
    if min_nodes ≤ rm.2.length ∧ ltOpt rm.1 margin = true ∧
        match_factor * osm_way.length < part_way_length ops env osm_way.nodes rm.2 then
      (some cand.1, fm.1.getD acc.2)
    else acc
  else acc

/-- One candidate step of merge_highways pass 1: pre-filter, then the
distance computation. -/
def findBestStep (ops : GeoOps) (env : Env) (osm_way : Way)
    (acc : Option Nat × ℚ) (cand : Nat × Way) : Option Nat × ℚ :=
  if candidateFilter osm_way cand.2 = true then findBestInner ops env osm_way acc cand
  else acc

/-- The candidate loop of merge_highways pass 1 (source lines 677-708):
best_id starts at None, best_distance at 99999.0. -/
def findBest (ops : GeoOps) (env : Env) (osm_way : Way)
    (nvdb_list : List (Nat × Way)) : Option Nat × ℚ :=
  nvdb_list.foldl (findBestStep ops env osm_way) (none, 99999)

/-- The candidate ids of merge pass 1 for which the pre-filter passes,
i.e. exactly the candidates reaching the match_ways computation. -/
def mergeTested (osm_way : Way) (nvdb_list : List (Nat × Way)) : List Nat :=
  nvdb_list.filterMap
    (fun cand => if candidateFilter osm_way cand.2 = true then some cand.1 else none)

/-- The cross-reference state merge_highways pass 1 threads through its
iteration: `osm_ways[o]['nvdb_id']` and `nvdb_ways[n]['osm_id']` /
`nvdb_ways[n]['distance']`. -/
structure MatchState where
  osmMatch : Nat → Option Nat
  nvdbMatch : Nat → Option (Nat × ℚ)

/-- Delete both cross references of a stored claim (source lines 720-721). -/
def eraseClaim (st : MatchState) (o n : Nat) : MatchState where
  osmMatch := fun x => if x = o then none else st.osmMatch x
  nvdbMatch := fun x => if x = n then none else st.nvdbMatch x

/-- Store both cross references of a new claim (source lines 726-729). -/
def addClaim (st : MatchState) (o n : Nat) (d : ℚ) : MatchState where
  osmMatch := fun x => if x = o then some n else st.osmMatch x
  nvdbMatch := fun x => if x = n then some (o, d) else st.nvdbMatch x

/-- Conflict resolution of the replace/offset branch (source lines
715-732): release an earlier claim on best_id when strictly worse, then
claim best_id if free.  merge_all is False, so the redundant-way removal
branch does nothing to the cross references. -/
def resolveClaim (st : MatchState) (osm_id best_id : Nat) (best_distance : ℚ) :
    MatchState :=
  let st1 :=
    match st.nvdbMatch best_id with
    | some (old_osm, old_distance) =>
        if old_distance > best_distance then eraseClaim st old_osm best_id else st
    | none => st
  match st1.nvdbMatch best_id with
  | none => addClaim st1 osm_id best_id best_distance
  | some _ => st1

/-- The `if best_id is not None` branch (source lines 712-739), by
command: replace/offset resolve conflicts, tag stores only the forward
reference. -/
def storeMatch (command : String) (st : MatchState)
    (osm_id best_id : Nat) (best_distance : ℚ) : MatchState :=
  if command = "replace" ∨ command = "offset" then
    resolveClaim st osm_id best_id best_distance
  else if command = "tag" then
    { st with osmMatch := fun x => if x = osm_id then some best_id else st.osmMatch x }
  else st

/-- One iteration of merge_highways pass 1 for one OSM way: the
eligibility test of line 672, the candidate search, and the match
storage. -/
def mergeStep (command : String) (ops : GeoOps) (env : Env)
    (nvdb_list : List (Nat × Way)) (st : MatchState) (p : Nat × Way) : MatchState :=
  if p.2.incomplete = false ∧ p.2.highway ≠ none ∧
      optIn p.2.highway avoid_highway = false then
    match findBest ops env p.2 nvdb_list with
    | (some best_id, best_distance) => storeMatch command st p.1 best_id best_distance
    | (none, _) => st
  else st

/-- Pass 1 of merge_highways (source lines 670-739): iterate the OSM
ways, find each one's best NVDB candidate and store the match. -/
def mergePass1 (command : String) (ops : GeoOps) (env : Env)
    (osm_list nvdb_list : List (Nat × Way)) : MatchState :=
  osm_list.foldl (mergeStep command ops env nvdb_list) ⟨fun _ => none, fun _ => none⟩

/-- The forward half of the bidirectional test as recorded by pass 1 for
an accepted pair: at least min_nodes matched nodes of the NVDB way, and
the spanned partial length above match_factor of its total length
(source lines 699-701; the best_distance comparison is relative to the
running best and is not part of the pair property). -/
@[reducible] def forwardOK (ops : GeoOps) (env : Env) (osm_way nvdb_way : Way) : Prop :=
  let fm := match_ways ops env nvdb_way osm_way 0 (nvdb_way.nodes.length - 1) margin false
  min_nodes ≤ fm.2.length ∧
  match_factor * nvdb_way.length < part_way_length ops env nvdb_way.nodes fm.2

/-- The reverse half of the bidirectional test (source lines 704-706):
at least min_nodes matched nodes of the OSM way, average distance under
the margin, spanned partial length above match_factor of its length. -/
@[reducible] def reverseOK (ops : GeoOps) (env : Env) (osm_way nvdb_way : Way) : Prop :=
  let rm := match_ways ops env osm_way nvdb_way 0 (osm_way.nodes.length - 1) margin false
  min_nodes ≤ rm.2.length ∧ ltOpt rm.1 margin = true ∧
  match_factor * osm_way.length < part_way_length ops env osm_way.nodes rm.2

/-- A candidate a fresh search (best_distance = 99999.0) would accept:
pre-filter plus both directions of the match test. -/
@[reducible] def viableCandidate (ops : GeoOps) (env : Env) (osm_way nvdb_way : Way) : Prop :=
  candidateFilter osm_way nvdb_way = true ∧
  ltOpt (match_ways ops env nvdb_way osm_way 0 (nvdb_way.nodes.length - 1) margin false).1
    99999 = true ∧
  forwardOK ops env osm_way nvdb_way ∧ reverseOK ops env osm_way nvdb_way

/-- Eligibility test of the add_new_highways candidate loop (source lines
803-805): complete OSM highway not in the avoid list, with overlapping
bounding box.  No length-ratio and no class-compatibility condition
appears there. -/
def addNewEligible (osm_way nvdb_way : Way) : Bool :=
  decide (osm_way.incomplete = false ∧ osm_way.highway ≠ none ∧
    optIn osm_way.highway avoid_highway = false ∧
    osm_way.min_lat ≤ nvdb_way.max_lat ∧ osm_way.max_lat ≥ nvdb_way.min_lat ∧
    osm_way.min_lon ≤ nvdb_way.max_lon ∧ osm_way.max_lon ≥ nvdb_way.min_lon)

/-- Insertion into the match_nodes set of add_new_highways. -/
def insertNode (s : List Nat) (x : Nat) : List Nat :=
  if x ∈ s then s else x :: s

/-- `match_nodes.update(test_match_nodes)` — set union. -/
def unionNodes (s : List Nat) (l : List Nat) : List Nat :=
  l.foldl insertNode s

/-- The OSM ids for which the add_new_highways loop over one NVDB way
invokes match_ways (source lines 800-811), including the early break
once every NVDB node has a match. -/
def addNewTested (ops : GeoOps) (env : Env) (nvdb_way : Way) :
    List (Nat × Way) → List Nat → List Nat
  | [], _ => []
  | cand :: rest, matched =>
      if addNewEligible cand.2 nvdb_way = true then
        let tm := match_ways ops env nvdb_way cand.2 0 (nvdb_way.nodes.length - 1)
          margin_new false
        let matched2 := unionNodes matched tm.2
        cand.1 :: (if matched2.length = nvdb_way.nodes.length then []
                   else addNewTested ops env nvdb_way rest matched2)
      else
        if matched.length = nvdb_way.nodes.length then []
        else addNewTested ops env nvdb_way rest matched

/-- Python `k in tags` on a tag dict: key membership. -/
def hasTagKey (tags : List (String × String)) (k : String) : Bool :=
  tags.any (fun kv => kv.1 = k)

/-- Whether the first character list starts the second. -/
def leadsWith : List Char → List Char → Bool
  | [], _ => true
  | _ :: _, [] => false
  | a :: as, b :: bs => (a = b) && leadsWith as bs

/-- Whether the first character list occurs inside the second. -/
def subOccurs (pat : List Char) : List Char → Bool
  | [] => leadsWith pat []
  | c :: cs => leadsWith pat (c :: cs) || subOccurs pat cs

/-- Python `pat in s` substring test. -/
def containsStr (s pat : String) : Bool :=
  subOccurs pat.data s.data

/-- Delete every tag whose key contains tunnel, bridge or layer (source
lines 981-983). -/
def stripStructureTags (tags : List (String × String)) : List (String × String) :=
  tags.filter
    (fun kv => !(containsStr kv.1 "tunnel" || containsStr kv.1 "bridge" ||
                 containsStr kv.1 "layer"))

/-- The endpoint-to-endpoint chord of a way, as passed to crossing_lines
(source lines 977-978). -/
def chord (env : Env) (nds : List Nat) : Pt × Pt :=
  (env (nds.headD 0), env (nds.getLastD 0))

/-- The inner loop over OSM ways of the bridge/tunnel removal step
(source lines 973-984) for one NVDB way: on an opposite-structure OSM
way whose chord crosses, strip the NVDB way's structure tags.  (The
bridge_tunnel marking of the OSM way is not modeled; it does not affect
the NVDB tags.) -/
def bridgeTunnelCheck (env : Env) (nv : Way) (p : Nat × Way) : Way :=
  if (hasTagKey nv.tags "tunnel" = true ∧ hasTagKey p.2.tags "bridge" = true ∨
      hasTagKey nv.tags "bridge" = true ∧ hasTagKey p.2.tags "tunnel" = true) ∧
      p.2.nodes ≠ [] then
    if crossing_lines (chord env nv.nodes) (chord env p.2.nodes) = true then
      { nv with tags := stripStructureTags nv.tags }
    else nv
  else nv

def bridgeTunnelInner (env : Env) (osm_list : List (Nat × Way)) (nvdb_way : Way) : Way :=
  osm_list.foldl (bridgeTunnelCheck env) nvdb_way

/-- The bridge/tunnel removal step of tag_highways for one NVDB way
(source lines 971-984).  The outer condition is, with Python operator
precedence, tunnel-tagged OR (bridge-tagged AND nodes nonempty AND
length < 50). -/
def bridgeTunnelStep (env : Env) (osm_list : List (Nat × Way)) (nvdb_way : Way) : Way :=
  if hasTagKey nvdb_way.tags "tunnel" = true ∨
      (hasTagKey nvdb_way.tags "bridge" = true ∧ nvdb_way.nodes ≠ [] ∧
       nvdb_way.length < 50) then
    bridgeTunnelInner env osm_list nvdb_way
  else nvdb_way

/-- What output_file reads and writes on an OSM point (source lines
1593-1598): whether it carries a tag element, its usage counter, and its
action attribute. -/
structure OutNode where
  hasTag : Bool
  used : Int
  action : Option String
deriving DecidableEq

/-- The node-removal loop of output_file (source lines 1593-1598): flag a
node for deletion when it has no tag element and its usage counter is
zero. -/
def markUnusedNodes (l : List OutNode) : List OutNode :=
  l.map (fun nd =>
    if nd.hasTag = false ∧ nd.used = 0 then { nd with action := some "delete" }
    else nd)

/-- One observed outcome of urllib.request.urlopen. -/
inductive FetchOutcome where
  | success
  | httpError (code : Nat)
deriving DecidableEq

/-- Result of the open_url retry loop.  ok/fatal results record the
sleep durations performed, in seconds; raised models re-raising an
unhandled HTTP error; noResponse is the model artifact for an outcome
trace shorter than the attempts the loop would make. -/
inductive FetchResult where
  | ok (sleeps : List Nat)
  | fatalExhausted (sleeps : List Nat)
  | fatalAuth (code : Nat)
  | fatalBadRequest (code : Nat)
  | raised (code : Nat)
  | noResponse (sleeps : List Nat)
deriving DecidableEq

/-- The `while tries < 6` loop of open_url (source lines 131-156), as a
function of the sequence of outcomes successive urlopen calls would
produce.  Transient codes sleep 5 * 2^tries seconds and retry;
401/403 and 400/409/412 terminate the run at once; other codes re-raise. -/
def open_url_go (tries : Nat) (sleeps : List Nat) :
    List FetchOutcome → FetchResult
  | [] => if tries < 6 then .noResponse sleeps else .fatalExhausted sleeps
  | r :: rest =>
      if tries < 6 then
        match r with
        | .success => .ok sleeps
        | .httpError c =>
            if c = 429 ∨ c = 503 ∨ c = 504 then
              open_url_go (tries + 1) (sleeps ++ [5 * 2 ^ tries]) rest
            else if c = 401 ∨ c = 403 then .fatalAuth c
            else if c = 400 ∨ c = 409 ∨ c = 412 then .fatalBadRequest c
            else .raised c
      else .fatalExhausted sleeps

/-- `open_url` (source lines 131-156). -/
def open_url (responses : List FetchOutcome) : FetchResult :=
  open_url_go 0 [] responses

/-- The caller's view (load_files): output is produced only when the
fetch returned a handle; every fatal branch exits the process before any
output file is written. -/
def fetchThenOutput (responses : List FetchOutcome) : Option Unit :=
  match open_url responses with
  | .ok _ => some ()
  | _ => none

/-- The first intersection parameter r1 computed by crossing_lines
(source line 243), restated as a standalone value. -/
def crossParam1 (s1 s2 : Pt × Pt) : ℚ :=
  ((s1.1.lat - s2.1.lat) * (s2.2.lon - s2.1.lon) -
   (s1.1.lon - s2.1.lon) * (s2.2.lat - s2.1.lat)) /
  ((s1.2.lon - s1.1.lon) * (s2.2.lat - s2.1.lat) -
   (s1.2.lat - s1.1.lat) * (s2.2.lon - s2.1.lon))

/-- The second intersection parameter r2 computed by crossing_lines
(source line 244), restated as a standalone value. -/
def crossParam2 (s1 s2 : Pt × Pt) : ℚ :=
  ((s1.1.lat - s2.1.lat) * (s1.2.lon - s1.1.lon) -
   (s1.1.lon - s2.1.lon) * (s1.2.lat - s1.1.lat)) /
  ((s1.2.lon - s1.1.lon) * (s2.2.lat - s2.1.lat) -
   (s1.2.lat - s1.1.lat) * (s2.2.lon - s2.1.lon))

/-- A tag key free of the bridge/tunnel/layer substrings, i.e. one the
removal step of tag_highways never deletes and the claim requires gone. -/
def cleanKey (k : String) : Prop :=
  containsStr k "tunnel" = false ∧ containsStr k "bridge" = false ∧
  containsStr k "layer" = false

/-- A recorded pair for which both ways are in their lists and both
directions of the bidirectional match test succeed. -/
def goodPair (ops : GeoOps) (env : Env) (osm_list nvdb_list : List (Nat × Way))
    (o n : Nat) : Prop :=
  ∃ osm_way nvdb_way, (o, osm_way) ∈ osm_list ∧ (n, nvdb_way) ∈ nvdb_list ∧
    forwardOK ops env osm_way nvdb_way ∧ reverseOK ops env osm_way nvdb_way

/-- The cross references form a partial bijection: an OSM way points to
an NVDB way exactly when that NVDB way points back at it. -/
def bijectiveState (st : MatchState) : Prop :=
  ∀ o n, st.osmMatch o = some n ↔ ∃ d, st.nvdbMatch n = some (o, d)

/-- The reprojected planar x coordinate line_distance computes from a
latitude/longitude pair (source lines 177-182). -/
def reprojX (ops : GeoOps) (lat lon : ℚ) : ℚ :=
  ops.radians lon * ops.cos (ops.radians lat)

/-- The reprojected planar y coordinate line_distance computes from a
latitude (source line 177). -/
def reprojY (ops : GeoOps) (lat : ℚ) : ℚ :=
  ops.radians lat

/-- The value line_distance returns when the projection parameter is t:
the projected point at parameter t of the reprojected segment, projected
back, and the scaled root of the squared distance from p3 to it. -/
def projectedResult (ops : GeoOps)
    (s1_lat s1_lon s2_lat s2_lon p3_lat p3_lon t : ℚ) : ℚ × ℚ × ℚ :=
  let x1 := reprojX ops s1_lat s1_lon
  let y1 := reprojY ops s1_lat
  let x2 := reprojX ops s2_lat s2_lon
  let y2 := reprojY ops s2_lat
  let x3 := reprojX ops p3_lat p3_lon
  let y3 := reprojY ops p3_lat
  let x4 := x1 + t * (x2 - x1)
  let y4 := y1 + t * (y2 - y1)
  (ops.degrees y4, ops.degrees (x4 / ops.cos y4),
   6371000 * ops.sqrt ((x4 - x3) * (x4 - x3) + (y4 - y3) * (y4 - y3)))

/-- The projection parameter line_distance effectively uses: the source
guards the division by len_sq (a zero-length segment yields param = -1),
then clamps the parameter into [0, 1] through its three-way branch. -/
def clampParam (ops : GeoOps)
    (s1_lat s1_lon s2_lat s2_lon p3_lat p3_lon : ℚ) : ℚ :=
  let x1 := reprojX ops s1_lat s1_lon
  let y1 := reprojY ops s1_lat
  let x2 := reprojX ops s2_lat s2_lon
  let y2 := reprojY ops s2_lat
  let x3 := reprojX ops p3_lat p3_lon
  let y3 := reprojY ops p3_lat
  let dx := x2 - x1
  let dy := y2 - y1
  let len_sq := dx * dx + dy * dy
  let param := if len_sq ≠ 0 then ((x3 - x1) * dx + (y3 - y1) * dy) / len_sq else -1
  if param < 0 then 0 else if param > 1 then 1 else param

/-!  Concrete instantiations used by witnesses and counterexamples.  The
primitive functions are instantiated with simple computable maps (radians
and degrees as the identity, cosine constantly one, square root as the
identity); the theorems quantify over arbitrary primitives, so the
witnesses only need some instantiation on which the programs can be
evaluated exactly. -/

def ops0 : GeoOps where
  radians := id
  degrees := id
  cos := fun _ => 1
  sqrt := fun q => q

/-- Shared node store for the concrete scenarios: two identical
two-node ways (ids 1,2 and 11,12) running along lon 0 to 1/100. -/
def envA : Env := fun n =>
  if n = 1 ∨ n = 11 then ⟨0, 0⟩
  else if n = 2 ∨ n = 12 then ⟨0, 1/100⟩
  else ⟨0, 0⟩

def wOsmA : Way where
  highway := some "residential"
  incomplete := false
  min_lat := -1
  max_lat := 1
  min_lon := -1
  max_lon := 1
  length := 6371/10
  nodes := [1, 2]
  tags := []

def wNvdbA : Way where
  highway := some "residential"
  incomplete := false
  min_lat := -1
  max_lat := 1
  min_lon := -1
  max_lon := 1
  length := 6371/10
  nodes := [11, 12]
  tags := []

/-- Node store for the conflict scenario: four parallel two-node ways at
latitudes 1/1000 (o1, nodes 1-2), 1/2000 (o2, nodes 3-4), 0 (n1, nodes
11-12) and 1/400 (n2, nodes 13-14). -/
def envB : Env := fun n =>
  if n = 1 then ⟨1/1000, 0⟩ else if n = 2 then ⟨1/1000, 1/100⟩
  else if n = 3 then ⟨1/2000, 0⟩ else if n = 4 then ⟨1/2000, 1/100⟩
  else if n = 11 then ⟨0, 0⟩ else if n = 12 then ⟨0, 1/100⟩
  else if n = 13 then ⟨1/400, 0⟩ else if n = 14 then ⟨1/400, 1/100⟩
  else ⟨0, 0⟩

def wB_o1 : Way where
  highway := some "residential"
  incomplete := false
  min_lat := -1
  max_lat := 1
  min_lon := -1
  max_lon := 1
  length := 6371/10
  nodes := [1, 2]
  tags := []

def wB_o2 : Way where
  highway := some "residential"
  incomplete := false
  min_lat := -1
  max_lat := 1
  min_lon := -1
  max_lon := 1
  length := 6371/10
  nodes := [3, 4]
  tags := []

def wB_n1 : Way where
  highway := some "residential"
  incomplete := false
  min_lat := -1
  max_lat := 1
  min_lon := -1
  max_lon := 1
  length := 6371/10
  nodes := [11, 12]
  tags := []

def wB_n2 : Way where
  highway := some "residential"
  incomplete := false
  min_lat := -1
  max_lat := 1
  min_lon := -1
  max_lon := 1
  length := 6371/10
  nodes := [13, 14]
  tags := []

/-- Node store for the crossing scenario: a horizontal chord (nodes 1-2)
and a vertical chord (nodes 3-4) crossing at the origin. -/
def envC : Env := fun n =>
  if n = 1 then ⟨0, -1⟩ else if n = 2 then ⟨0, 1⟩
  else if n = 3 then ⟨-1, 0⟩ else if n = 4 then ⟨1, 0⟩
  else ⟨0, 0⟩

def wC_nvdb : Way where
  highway := some "residential"
  incomplete := false
  min_lat := -1
  max_lat := 1
  min_lon := -1
  max_lon := 1
  length := 10
  nodes := [1, 2]
  tags := [("bridge", "yes"), ("name", "X")]

def wC_osm : Way where
  highway := some "residential"
  incomplete := false
  min_lat := -1
  max_lat := 1
  min_lon := -1
  max_lon := 1
  length := 10
  nodes := [3, 4]
  tags := [("tunnel", "yes")]

/-- Node store for the end-trimming scenario: way2 (nodes 21-22) along
latitude 0, way1 (nodes 31-33) with a leading runoff node at latitude
1/1000 and two nodes on way2. -/
def envT : Env := fun n =>
  if n = 21 then ⟨0, 0⟩ else if n = 22 then ⟨0, 1/100⟩
  else if n = 31 then ⟨1/1000, 0⟩ else if n = 32 then ⟨0, 1/2000⟩
  else if n = 33 then ⟨0, 1/1000⟩
  else ⟨0, 0⟩

def wTrim1 : Way where
  highway := some "residential"
  incomplete := false
  min_lat := -1
  max_lat := 1
  min_lon := -1
  max_lon := 1
  length := 6371/10
  nodes := [31, 32, 33]
  tags := []

def wTrim2 : Way where
  highway := some "residential"
  incomplete := false
  min_lat := -1
  max_lat := 1
  min_lon := -1
  max_lon := 1
  length := 6371/10
  nodes := [21, 22]
  tags := []

/-- A long NVDB way and a short OSM stub way with overlapping bounding
boxes, for the new-mode filter scenario. -/
def wNvdbLong : Way where
  highway := some "residential"
  incomplete := false
  min_lat := -1
  max_lat := 1
  min_lon := -1
  max_lon := 1
  length := 6371/10
  nodes := [11, 12]
  tags := []

def wOsmStub : Way where
  highway := some "residential"
  incomplete := false
  min_lat := -1
  max_lat := 1
  min_lon := -1
  max_lon := 1
  length := 1/10
  nodes := [1, 2]
  tags := []

/-- A concrete matching state in which OSM way 7 claims NVDB way 21 at
distance 5. -/
def stC : MatchState where
  osmMatch := fun x => if x = 7 then some 21 else none
  nvdbMatch := fun x => if x = 21 then some (7, 5) else none

/-!  Theorems. -/

/-- Claim C5 (the code diverges from it): with end-trimming enabled, a
leading matched point whose distance 6371/1000 exceeds half the margin
(10/2 = 5) and whose removal shortens the span by 31855/4000 < 10 should
be removed per the claim, and the one-directional trim of exactly these
matched lists does remove it; but match_ways keeps the matched list
[0, 1, 2] unchanged, because each iteration of the direction loop restarts
from the original lists and the backward pass overwrites the forward
pass's result. -/
theorem C5_trim_end_eval :
    match_ways ops0 envT wTrim1 wTrim2 0 2 10 true = (some (6371/3000), [0, 1, 2]) ∧
    minNodeDistance ops0 envT 10 wTrim2.nodes 31 = 6371/1000 ∧
    (1/2 : ℚ) * 10 < 6371/1000 ∧
    distance ops0 (envT 31).lat (envT 31).lon (envT 32).lat (envT 32).lon ≤ 10 ∧
    trimLoop ops0 envT 10 wTrim1.nodes 0 [0, 1, 2] [6371/1000, 0, 0] = ([1, 2], [0, 0]) :=
  ⟨by decide, by decide, by decide, by decide, by decide⟩

/-- Claim C6 as stated is false: a point that carries a tag element is
retained by output_file without a delete flag even when its usage counter
is zero. -/
theorem C6_counterexample :
    ¬ ∀ nd ∈ markUnusedNodes [⟨true, 0, none⟩],
        nd.action ≠ some "delete" → 0 < nd.used := by
  decide

/-- Claim C6 (amended): every point the node-removal loop of output_file
retains without a delete flag and without tags has a nonzero usage
counter; tagged points are retained regardless of usage. -/
theorem C6_untagged_retained_used (l : List OutNode) (nd : OutNode)
    (h1 : nd ∈ markUnusedNodes l) (h2 : nd.hasTag = false)
    (h3 : nd.action ≠ some "delete") : nd.used ≠ 0 := by
  rcases List.mem_map.1 h1 with ⟨x, _, hfx⟩
  by_cases hc : x.hasTag = false ∧ x.used = 0
  · rw [if_pos hc] at hfx
    cases hfx
    exact absurd rfl h3
  · rw [if_neg hc] at hfx
    cases hfx
    intro h0
    exact hc ⟨h2, h0⟩

/-- Witness for C6_untagged_retained_used at a concrete node list. -/
theorem C6_untagged_retained_used_witness :
    (⟨false, 3, none⟩ : OutNode).used ≠ 0 :=
  C6_untagged_retained_used [⟨false, 3, none⟩] ⟨false, 3, none⟩
    (by decide) rfl (by decide)

/-- After six attempts the retry loop gives up whatever outcomes would
follow. -/
theorem open_url_go_six (sleeps : List Nat) (l : List FetchOutcome) :
    open_url_go 6 sleeps l = .fatalExhausted sleeps := by
  cases l <;> simp [open_url_go]

/-- A transient code below the attempt bound sleeps 5 * 2^tries and
retries. -/
theorem open_url_go_transient (c : Nat) (h : c = 429 ∨ c = 503 ∨ c = 504)
    (tries : Nat) (ht : tries < 6) (sleeps : List Nat) (rest : List FetchOutcome) :
    open_url_go tries sleeps (.httpError c :: rest) =
      open_url_go (tries + 1) (sleeps ++ [5 * 2 ^ tries]) rest := by
  rcases h with h | h | h <;> subst h <;> simp [open_url_go, ht]

/-- Claim C7: open_url retries transient failures (429/503/504) with
exponentially doubling backoff (5, 10, 20, 40, 80, 160 seconds) up to 6
attempts and then terminates the run; 401/403 and 400/409/412 terminate
the run immediately without retrying; no output is produced in either
fatal case. -/
theorem C7_open_url_retry_policy :
    (∀ c1 c2 c3 c4 c5 c6 : Nat, ∀ rest : List FetchOutcome,
      (c1 = 429 ∨ c1 = 503 ∨ c1 = 504) → (c2 = 429 ∨ c2 = 503 ∨ c2 = 504) →
      (c3 = 429 ∨ c3 = 503 ∨ c3 = 504) → (c4 = 429 ∨ c4 = 503 ∨ c4 = 504) →
      (c5 = 429 ∨ c5 = 503 ∨ c5 = 504) → (c6 = 429 ∨ c6 = 503 ∨ c6 = 504) →
      open_url (.httpError c1 :: .httpError c2 :: .httpError c3 :: .httpError c4 ::
          .httpError c5 :: .httpError c6 :: rest) =
        .fatalExhausted [5, 10, 20, 40, 80, 160] ∧
      fetchThenOutput (.httpError c1 :: .httpError c2 :: .httpError c3 :: .httpError c4 ::
          .httpError c5 :: .httpError c6 :: rest) = none) ∧
    (∀ c : Nat, ∀ rest : List FetchOutcome, c = 401 ∨ c = 403 →
      open_url (.httpError c :: rest) = .fatalAuth c ∧
      fetchThenOutput (.httpError c :: rest) = none) ∧
    (∀ c : Nat, ∀ rest : List FetchOutcome, c = 400 ∨ c = 409 ∨ c = 412 →
      open_url (.httpError c :: rest) = .fatalBadRequest c ∧
      fetchThenOutput (.httpError c :: rest) = none) := by
  refine ⟨?_, ?_, ?_⟩
  · intro c1 c2 c3 c4 c5 c6 rest h1 h2 h3 h4 h5 h6
    have e : open_url (.httpError c1 :: .httpError c2 :: .httpError c3 :: .httpError c4 ::
        .httpError c5 :: .httpError c6 :: rest) = .fatalExhausted [5, 10, 20, 40, 80, 160] := by
      rw [open_url, open_url_go_transient c1 h1 0 (by decide),
        open_url_go_transient c2 h2 1 (by decide),
        open_url_go_transient c3 h3 2 (by decide),
        open_url_go_transient c4 h4 3 (by decide),
        open_url_go_transient c5 h5 4 (by decide),
        open_url_go_transient c6 h6 5 (by decide),
        open_url_go_six]
      norm_num
    exact ⟨e, by rw [fetchThenOutput, e]⟩
  · intro c rest h
    have e : open_url (.httpError c :: rest) = .fatalAuth c := by
      rcases h with h | h <;> subst h <;> simp [open_url, open_url_go]
    exact ⟨e, by rw [fetchThenOutput, e]⟩
  · intro c rest h
    have e : open_url (.httpError c :: rest) = .fatalBadRequest c := by
      rcases h with h | h | h <;> subst h <;> simp [open_url, open_url_go]
    exact ⟨e, by rw [fetchThenOutput, e]⟩

/-- Witness for C7_open_url_retry_policy at concrete outcome traces. -/
theorem C7_open_url_retry_policy_witness :
    (open_url [.httpError 429, .httpError 503, .httpError 504, .httpError 429,
        .httpError 429, .httpError 429] = .fatalExhausted [5, 10, 20, 40, 80, 160] ∧
      fetchThenOutput [.httpError 429, .httpError 503, .httpError 504, .httpError 429,
        .httpError 429, .httpError 429] = none) ∧
    (open_url [.httpError 401] = .fatalAuth 401 ∧
      fetchThenOutput [.httpError 401] = none) ∧
    (open_url [.httpError 400, .success] = .fatalBadRequest 400 ∧
      fetchThenOutput [.httpError 400, .success] = none) :=
  ⟨C7_open_url_retry_policy.1 429 503 504 429 429 429 []
      (Or.inl rfl) (Or.inr (Or.inl rfl)) (Or.inr (Or.inr rfl))
      (Or.inl rfl) (Or.inl rfl) (Or.inl rfl),
   C7_open_url_retry_policy.2.1 401 [] (Or.inl rfl),
   C7_open_url_retry_policy.2.2 400 [.success] (Or.inl rfl)⟩

/-- Claim C2 as stated is false: in the replace mode, after OSM ways 1
and 2 both claim NVDB way 11 and way 2's claim wins (lower distance),
the released way 1 ends pass 1 unmatched even though NVDB way 12 is a
remaining viable candidate for it (and is itself unclaimed) — the
released way does not search again. -/
theorem C2_counterexample :
    (mergePass1 "replace" ops0 envB [(1, wB_o1), (2, wB_o2)]
        [(11, wB_n1), (12, wB_n2)]).osmMatch 2 = some 11 ∧
    (mergePass1 "replace" ops0 envB [(1, wB_o1), (2, wB_o2)]
        [(11, wB_n1), (12, wB_n2)]).nvdbMatch 11 = some (2, 6371/4000) ∧
    (mergePass1 "replace" ops0 envB [(1, wB_o1), (2, wB_o2)]
        [(11, wB_n1), (12, wB_n2)]).osmMatch 1 = none ∧
    (mergePass1 "replace" ops0 envB [(1, wB_o1), (2, wB_o2)]
        [(11, wB_n1), (12, wB_n2)]).nvdbMatch 12 = none ∧
    viableCandidate ops0 envB wB_o1 wB_n2 :=
  ⟨by decide, by decide, by decide, by decide, by decide⟩

/-- Claim C2 (amended): when a second OSM way claims an already-claimed
NVDB way, the conflict step keeps the claim with the strictly lower
average distance: a strictly better new claim releases the earlier
claimant, which is left unmatched in the state (it is not searched
again), and a not-strictly-better new claim leaves the state unchanged
(the new claimant stays unmatched). -/
theorem C2_resolve_keeps_lower (st : MatchState) (o1 o n : Nat) (d1 d : ℚ)
    (hold : st.nvdbMatch n = some (o1, d1)) (hne : o ≠ o1) :
    (d < d1 →
      (resolveClaim st o n d).osmMatch o1 = none ∧
      (resolveClaim st o n d).osmMatch o = some n ∧
      (resolveClaim st o n d).nvdbMatch n = some (o, d)) ∧
    (¬ d < d1 → resolveClaim st o n d = st) := by
  constructor
  · intro hlt
    have e : resolveClaim st o n d = addClaim (eraseClaim st o1 n) o n d := by
      simp only [resolveClaim, hold, gt_iff_lt, if_pos hlt]
      simp [eraseClaim]
    rw [e]
    refine ⟨?_, ?_, ?_⟩
    · simp [addClaim, eraseClaim, hne.symm, fun h : o1 = o => hne h.symm]
    · simp [addClaim]
    · simp [addClaim]
  · intro hge
    simp only [resolveClaim, hold, gt_iff_lt, if_neg hge]

/-- Witness for C2_resolve_keeps_lower at a concrete state: OSM way 7
holds NVDB way 21 at distance 5 and OSM way 8 challenges. -/
theorem C2_resolve_keeps_lower_witness :
    ((3 : ℚ) < 5 →
      (resolveClaim stC 8 21 3).osmMatch 7 = none ∧
      (resolveClaim stC 8 21 3).osmMatch 8 = some 21 ∧
      (resolveClaim stC 8 21 3).nvdbMatch 21 = some (8, 3)) ∧
    (¬ (3 : ℚ) < 5 → resolveClaim stC 8 21 3 = stC) :=
  C2_resolve_keeps_lower stC 7 8 21 5 3 (by decide) (by decide)

/-- Filtered tags satisfy the clean-key predicate. -/
theorem stripStructureTags_clean (tags : List (String × String)) :
    ∀ kv ∈ stripStructureTags tags, cleanKey kv.1 := by
  intro kv hkv
  rcases List.mem_filter.1 hkv with ⟨_, hp⟩
  simp only [Bool.not_eq_true', Bool.or_eq_false_iff] at hp
  exact ⟨hp.1.1, hp.1.2, hp.2⟩

/-- One check step never changes the node list. -/
theorem bridgeTunnelCheck_nodes (env : Env) (nv : Way) (p : Nat × Way) :
    (bridgeTunnelCheck env nv p).nodes = nv.nodes := by
  unfold bridgeTunnelCheck
  split_ifs <;> rfl

/-- One check step either keeps the way or strips its structure tags. -/
theorem bridgeTunnelCheck_cases (env : Env) (nv : Way) (p : Nat × Way) :
    bridgeTunnelCheck env nv p = nv ∨
    (bridgeTunnelCheck env nv p).tags = stripStructureTags nv.tags := by
  unfold bridgeTunnelCheck
  split_ifs
  · exact Or.inr rfl
  · exact Or.inl rfl
  · exact Or.inl rfl

/-- Once the structure tags are gone they stay gone through the rest of
the inner loop. -/
theorem bridgeTunnelInner_clean (env : Env) :
    ∀ (l : List (Nat × Way)) (nv : Way),
      (∀ kv ∈ nv.tags, cleanKey kv.1) →
      ∀ kv ∈ (bridgeTunnelInner env l nv).tags, cleanKey kv.1 := by
  intro l
  induction l with
  | nil => intro nv h; exact h
  | cons p rest ih =>
    intro nv h
    rw [bridgeTunnelInner, List.foldl_cons]
    rcases bridgeTunnelCheck_cases env nv p with he | hs
    · rw [he]; exact ih nv h
    · refine ih _ ?_
      intro kv hkv
      rw [hs] at hkv
      exact stripStructureTags_clean _ kv hkv

/-- If some way of the list triggers the crossing check against the NVDB
way, the inner loop leaves the NVDB way with no structure tags. -/
theorem bridgeTunnelInner_strips (env : Env) (nvdb_way : Way)
    (osm_id : Nat) (osm_way : Way)
    (hopp : hasTagKey nvdb_way.tags "tunnel" = true ∧
            hasTagKey osm_way.tags "bridge" = true ∨
            hasTagKey nvdb_way.tags "bridge" = true ∧
            hasTagKey osm_way.tags "tunnel" = true)
    (honodes : osm_way.nodes ≠ [])
    (hcross : crossing_lines (chord env nvdb_way.nodes) (chord env osm_way.nodes) = true) :
    ∀ (l : List (Nat × Way)) (nv : Way),
      (nv = nvdb_way ∨ ∀ kv ∈ nv.tags, cleanKey kv.1) →
      (osm_id, osm_way) ∈ l →
      ∀ kv ∈ (bridgeTunnelInner env l nv).tags, cleanKey kv.1 := by
  intro l
  induction l with
  | nil => intro nv _ hmem; exact absurd hmem (List.not_mem_nil _)
  | cons p rest ih =>
    intro nv hdisj hmem
    rw [bridgeTunnelInner, List.foldl_cons]
    have tailGoal : ∀ nv2 : Way,
        (nv2 = nvdb_way ∨ ∀ kv ∈ nv2.tags, cleanKey kv.1) →
        (osm_id, osm_way) ∈ rest →
        ∀ kv ∈ (rest.foldl (bridgeTunnelCheck env) nv2).tags, cleanKey kv.1 := by
      intro nv2 h2 hm2
      rw [← bridgeTunnelInner]
      exact ih nv2 h2 hm2
    have cleanGoal : ∀ nv2 : Way, (∀ kv ∈ nv2.tags, cleanKey kv.1) →
        ∀ kv ∈ (rest.foldl (bridgeTunnelCheck env) nv2).tags, cleanKey kv.1 := by
      intro nv2 h2
      rw [← bridgeTunnelInner]
      exact bridgeTunnelInner_clean env rest nv2 h2
    rcases hdisj with hnv | hclean
    · rw [hnv]
      rcases List.mem_cons.1 hmem with heq | hmem2
      · have e : bridgeTunnelCheck env nvdb_way p =
            { nvdb_way with tags := stripStructureTags nvdb_way.tags } := by
          rw [← heq]
          unfold bridgeTunnelCheck
          rw [if_pos ⟨hopp, honodes⟩, if_pos hcross]
        rw [e]
        exact cleanGoal _ (stripStructureTags_clean nvdb_way.tags)
      · rcases bridgeTunnelCheck_cases env nvdb_way p with he | hs
        · rw [he]
          exact tailGoal nvdb_way (Or.inl rfl) hmem2
        · refine cleanGoal _ ?_
          intro kv hkv
          rw [hs] at hkv
          exact stripStructureTags_clean _ kv hkv
    · rcases bridgeTunnelCheck_cases env nv p with he | hs
      · rw [he]
        exact cleanGoal nv hclean
      · refine cleanGoal _ ?_
        intro kv hkv
        rw [hs] at hkv
        exact stripStructureTags_clean _ kv hkv

/-- Claim C3: a counterpart way shorter than 50 m tagged bridge or
tunnel, whose endpoint chord crosses the chord of some target way with
the opposite structure tag, loses every tag whose key contains bridge,
tunnel or layer; the crossing test returns false for parallel chords and
returns true only when both intersection parameters lie in [0, 1]. -/
theorem C3_bridge_tunnel_crossing (env : Env) (osm_list : List (Nat × Way))
    (nvdb_way : Way) (osm_id : Nat) (osm_way : Way)
    (hlen : nvdb_way.length < 50) (hnodes : nvdb_way.nodes ≠ [])
    (hmem : (osm_id, osm_way) ∈ osm_list)
    (hopp : hasTagKey nvdb_way.tags "tunnel" = true ∧
            hasTagKey osm_way.tags "bridge" = true ∨
            hasTagKey nvdb_way.tags "bridge" = true ∧
            hasTagKey osm_way.tags "tunnel" = true)
    (honodes : osm_way.nodes ≠ [])
    (hcross : crossing_lines (chord env nvdb_way.nodes) (chord env osm_way.nodes) = true) :
    (∀ kv ∈ (bridgeTunnelStep env osm_list nvdb_way).tags, cleanKey kv.1) ∧
    (∀ s1 s2 : Pt × Pt,
      (s1.2.lon - s1.1.lon) * (s2.2.lat - s2.1.lat) -
        (s1.2.lat - s1.1.lat) * (s2.2.lon - s2.1.lon) = 0 →
      crossing_lines s1 s2 = false) ∧
    (∀ s1 s2 : Pt × Pt, crossing_lines s1 s2 = true →
      0 ≤ crossParam1 s1 s2 ∧ crossParam1 s1 s2 ≤ 1 ∧
      0 ≤ crossParam2 s1 s2 ∧ crossParam2 s1 s2 ≤ 1) := by
  refine ⟨?_, ?_, ?_⟩
  · have hcond : hasTagKey nvdb_way.tags "tunnel" = true ∨
        (hasTagKey nvdb_way.tags "bridge" = true ∧ nvdb_way.nodes ≠ [] ∧
         nvdb_way.length < 50) := by
      rcases hopp with h | h
      · exact Or.inl h.1
      · exact Or.inr ⟨h.1, hnodes, hlen⟩
    rw [bridgeTunnelStep, if_pos hcond]
    exact bridgeTunnelInner_strips env nvdb_way osm_id osm_way hopp honodes hcross
      osm_list nvdb_way (Or.inl rfl) hmem
  · intro s1 s2 hD
    simp only [crossing_lines]
    rw [hD]
    norm_num
  · intro s1 s2 h
    simp only [crossing_lines] at h
    split_ifs at h with h1 h2
    push_neg at h2
    exact ⟨h2.1, h2.2.1, h2.2.2.1, h2.2.2.2⟩

/-- Witness for C3_bridge_tunnel_crossing: a 10 m bridge-tagged NVDB way
whose chord crosses a tunnel-tagged OSM way's chord. -/
theorem C3_bridge_tunnel_crossing_witness :
    (∀ kv ∈ (bridgeTunnelStep envC [(7, wC_osm)] wC_nvdb).tags, cleanKey kv.1) ∧
    (∀ s1 s2 : Pt × Pt,
      (s1.2.lon - s1.1.lon) * (s2.2.lat - s2.1.lat) -
        (s1.2.lat - s1.1.lat) * (s2.2.lon - s2.1.lon) = 0 →
      crossing_lines s1 s2 = false) ∧
    (∀ s1 s2 : Pt × Pt, crossing_lines s1 s2 = true →
      0 ≤ crossParam1 s1 s2 ∧ crossParam1 s1 s2 ≤ 1 ∧
      0 ≤ crossParam2 s1 s2 ∧ crossParam2 s1 s2 ≤ 1) :=
  C3_bridge_tunnel_crossing envC [(7, wC_osm)] wC_nvdb 7 wC_osm
    (by decide) (by decide) (by decide) (by decide) (by decide) (by decide)

/-- The candidate fold of merge pass 1 equals the inner fold restricted
to the candidates passing the pre-filter: filtering happens before any
distance computation. -/
theorem findBest_filter_aux (ops : GeoOps) (env : Env) (osm_way : Way) :
    ∀ (l : List (Nat × Way)) (acc : Option Nat × ℚ),
      l.foldl (findBestStep ops env osm_way) acc =
        (l.filter (fun cand => candidateFilter osm_way cand.2)).foldl
          (findBestInner ops env osm_way) acc := by
  intro l
  induction l with
  | nil => intro acc; rfl
  | cons p rest ih =>
    intro acc
    by_cases hc : candidateFilter osm_way p.2 = true
    · simp only [List.foldl_cons, List.filter_cons, hc, if_true, findBestStep, ih]
    · simp only [List.foldl_cons, List.filter_cons, hc, if_false, findBestStep, ih]
      simp [hc]

/-- Claim C4 as stated is false: in the new mode, an own-network way
whose length is far outside the ratio window is still passed to the
match_ways computation — add_new_highways filters only on eligibility
and bounding-box overlap. -/
theorem C4_counterexample :
    5 ∈ addNewTested ops0 envA wNvdbLong [(5, wOsmStub)] [] ∧
    ¬ wOsmStub.length > match_factor * wNvdbLong.length :=
  ⟨by decide, by decide⟩

/-- Claim C4 (amended): in the merge pass (replace/offset/tag), a
counterpart way reaches the distance computation only if it passes the
pre-filter, which requires exactly bounding-box overlap, the length
ratio window and class compatibility, and the filter runs before any
distance computation (findBest equals the inner fold over the filtered
candidate list); in the new mode a way reaches match_ways only if it is
complete, has a non-avoided highway and its bounding box overlaps — no
length-ratio or class-compatibility condition is applied there. -/
theorem C4_candidate_filters :
    (∀ osm_way nvdb_way : Way, candidateFilter osm_way nvdb_way = true →
      (nvdb_way.min_lat ≤ osm_way.max_lat ∧ nvdb_way.max_lat ≥ osm_way.min_lat ∧
       nvdb_way.min_lon ≤ osm_way.max_lon ∧ nvdb_way.max_lon ≥ osm_way.min_lon) ∧
      (osm_way.length > match_factor * nvdb_way.length ∧
       nvdb_way.length > match_factor * osm_way.length) ∧
      ¬(optIn nvdb_way.highway pedestrian_highway = true ∧
        optIn osm_way.highway (pedestrian_highway ++ ["track"]) = false ∨
        optIn nvdb_way.highway pedestrian_highway = false ∧
        optIn osm_way.highway pedestrian_highway = true) ∧
      ¬(optIn nvdb_way.highway state_highway = true ∧
        optIn osm_way.highway (state_highway ++ ["tertiary"]) = false ∨
        optIn osm_way.highway state_highway = true ∧
        optIn nvdb_way.highway (state_highway ++ ["road", "tertiary"]) = false)) ∧
    (∀ (ops : GeoOps) (env : Env) (osm_way : Way) (nvdb_list : List (Nat × Way)),
      findBest ops env osm_way nvdb_list =
        (nvdb_list.filter (fun cand => candidateFilter osm_way cand.2)).foldl
          (findBestInner ops env osm_way) (none, 99999)) ∧
    (∀ (ops : GeoOps) (env : Env) (nvdb_way : Way) (osm_list : List (Nat × Way))
        (matched : List Nat) (oid : Nat),
      oid ∈ addNewTested ops env nvdb_way osm_list matched →
      ∃ osm_way, (oid, osm_way) ∈ osm_list ∧ addNewEligible osm_way nvdb_way = true) := by
  refine ⟨?_, ?_, ?_⟩
  · intro osm_way nvdb_way h
    unfold candidateFilter at h
    split_ifs at h with h1 h2 h3
    · exact ⟨⟨h1.1, h1.2.1, h1.2.2.1, h1.2.2.2.1⟩,
        ⟨h1.2.2.2.2.1, h1.2.2.2.2.2⟩, h2, h3⟩
  · intro ops env osm_way nvdb_list
    rw [findBest]
    exact findBest_filter_aux ops env osm_way nvdb_list (none, 99999)
  · intro ops env nvdb_way osm_list
    induction osm_list with
    | nil => intro matched oid h; simp [addNewTested] at h
    | cons p rest ih =>
      intro matched oid h
      rw [addNewTested] at h
      by_cases he : addNewEligible p.2 nvdb_way = true
      · rw [if_pos he] at h
        rcases List.mem_cons.1 h with h0 | h1
        · exact ⟨p.2, by rw [h0]; exact List.mem_cons_self _ _, he⟩
        · split at h1
          · exact absurd h1 (List.not_mem_nil _)
          · rcases ih _ _ h1 with ⟨w, hw, hel⟩
            exact ⟨w, List.mem_cons_of_mem _ hw, hel⟩
      · rw [if_neg he] at h
        split at h
        · exact absurd h (List.not_mem_nil _)
        · rcases ih _ _ h with ⟨w, hw, hel⟩
          exact ⟨w, List.mem_cons_of_mem _ hw, hel⟩

/-- Witness for C4_candidate_filters: the new-mode conjunct applied at
the counterexample's input. -/
theorem C4_candidate_filters_witness :
    ∃ osm_way, (5, osm_way) ∈ [(5, wOsmStub)] ∧
      addNewEligible osm_way wNvdbLong = true :=
  C4_candidate_filters.2.2 ops0 envA wNvdbLong [(5, wOsmStub)] [] 5 (by decide)

/-- Claim C8: line_distance is total; its projection is the segment
point at the parameter clamped into [0, 1] (with the division by the
squared segment length guarded), and for a degenerate segment (both
reprojected endpoints equal, hence len_sq = 0) the returned projection
is the start point itself, with the distance computed from the point to
that start point. -/
theorem C8_line_distance_total (ops : GeoOps)
    (s1_lat s1_lon s2_lat s2_lon p3_lat p3_lon : ℚ)
    (hdr : ∀ q, ops.degrees (ops.radians q) = q)
    (hcos : ops.cos (ops.radians s1_lat) ≠ 0) :
    (line_distance ops s1_lat s1_lon s2_lat s2_lon p3_lat p3_lon =
      projectedResult ops s1_lat s1_lon s2_lat s2_lon p3_lat p3_lon
        (clampParam ops s1_lat s1_lon s2_lat s2_lon p3_lat p3_lon)) ∧
    (0 ≤ clampParam ops s1_lat s1_lon s2_lat s2_lon p3_lat p3_lon ∧
      clampParam ops s1_lat s1_lon s2_lat s2_lon p3_lat p3_lon ≤ 1) ∧
    (reprojX ops s2_lat s2_lon = reprojX ops s1_lat s1_lon ∧
      reprojY ops s2_lat = reprojY ops s1_lat →
      clampParam ops s1_lat s1_lon s2_lat s2_lon p3_lat p3_lon = 0 ∧
      line_distance ops s1_lat s1_lon s2_lat s2_lon p3_lat p3_lon =
        (s1_lat, s1_lon,
         6371000 * ops.sqrt
           ((reprojX ops s1_lat s1_lon - reprojX ops p3_lat p3_lon) *
              (reprojX ops s1_lat s1_lon - reprojX ops p3_lat p3_lon) +
            (reprojY ops s1_lat - reprojY ops p3_lat) *
              (reprojY ops s1_lat - reprojY ops p3_lat)))) := by
  have hclamp : line_distance ops s1_lat s1_lon s2_lat s2_lon p3_lat p3_lon =
      projectedResult ops s1_lat s1_lon s2_lat s2_lon p3_lat p3_lon
        (clampParam ops s1_lat s1_lon s2_lat s2_lon p3_lat p3_lon) := by
    simp only [line_distance, projectedResult, clampParam, reprojX, reprojY]
    split_ifs <;> simp only [Prod.mk.injEq] <;>
      refine ⟨?_, ?_, ?_⟩ <;> (try rfl) <;> (congr 1 <;> try ring) <;>
        (congr 1 <;> ring)
  have clamp01 : ∀ q : ℚ, 0 ≤ (if q < 0 then 0 else if q > 1 then 1 else q) ∧
      (if q < 0 then 0 else if q > 1 then 1 else q) ≤ 1 := by
    intro q
    split_ifs with h1 h2
    · norm_num
    · norm_num
    · exact ⟨le_of_not_lt h1, le_of_not_lt h2⟩
  have hbounds : 0 ≤ clampParam ops s1_lat s1_lon s2_lat s2_lon p3_lat p3_lon ∧
      clampParam ops s1_lat s1_lon s2_lat s2_lon p3_lat p3_lon ≤ 1 := by
    simp only [clampParam]
    exact clamp01 _
  refine ⟨hclamp, hbounds, ?_⟩
  rintro ⟨hx, hy⟩
  have hdeg : clampParam ops s1_lat s1_lon s2_lat s2_lon p3_lat p3_lon = 0 := by
    simp only [clampParam]
    rw [hx, hy]
    norm_num
  refine ⟨hdeg, ?_⟩
  rw [hclamp, hdeg]
  simp only [projectedResult]
  refine Prod.ext ?_ (Prod.ext ?_ ?_)
  · show ops.degrees (reprojY ops s1_lat + 0 * (reprojY ops s2_lat - reprojY ops s1_lat)) = s1_lat
    rw [zero_mul, add_zero, reprojY, hdr]
  · show ops.degrees ((reprojX ops s1_lat s1_lon + 0 * _) /
        ops.cos (reprojY ops s1_lat + 0 * (reprojY ops s2_lat - reprojY ops s1_lat))) = s1_lon
    rw [zero_mul, add_zero, zero_mul, add_zero, reprojY, reprojX,
      mul_div_cancel_right₀ _ hcos, hdr]
  · show 6371000 * ops.sqrt _ = 6371000 * ops.sqrt _
    congr 1
    ring

/-- Witness for C8_line_distance_total under the identity primitives
(radians and degrees are mutually inverse and the cosine is the nonzero
constant 1) at concrete coordinates. -/
theorem C8_line_distance_total_witness :
    (line_distance ops0 0 0 0 (1/100) (1/1000) 0 =
      projectedResult ops0 0 0 0 (1/100) (1/1000) 0
        (clampParam ops0 0 0 0 (1/100) (1/1000) 0)) ∧
    (0 ≤ clampParam ops0 0 0 0 (1/100) (1/1000) 0 ∧
      clampParam ops0 0 0 0 (1/100) (1/1000) 0 ≤ 1) ∧
    (reprojX ops0 0 (1/100) = reprojX ops0 0 0 ∧
      reprojY ops0 0 = reprojY ops0 0 →
      clampParam ops0 0 0 0 (1/100) (1/1000) 0 = 0 ∧
      line_distance ops0 0 0 0 (1/100) (1/1000) 0 =
        (0, 0,
         6371000 * ops0.sqrt
           ((reprojX ops0 0 0 - reprojX ops0 (1/1000) 0) *
              (reprojX ops0 0 0 - reprojX ops0 (1/1000) 0) +
            (reprojY ops0 0 - reprojY ops0 (1/1000)) *
              (reprojY ops0 0 - reprojY ops0 (1/1000))))) :=
  C8_line_distance_total ops0 0 0 0 (1/100) (1/1000) 0
    (fun _ => rfl) (by decide)

/-- Every distance the scan records is strictly below the margin. -/
theorem matchScan_snd_lt (ops : GeoOps) (env : Env) (way1 way2 : Way)
    (s e : Nat) (m : ℚ) :
    ∀ p ∈ matchScan ops env way1 way2 s e m, p.2 < m := by
  intro p hp
  rcases List.mem_filterMap.1 hp with ⟨a, _, hfa⟩
  simp only at hfa
  split_ifs at hfa with hd
  · cases hfa
    exact hd

/-- The trim loop only removes entries: the remaining distances are
among the input distances. -/
theorem trimLoop_snd_subset (ops : GeoOps) (env : Env) (m : ℚ) (w : List Nat) :
    ∀ (ds : List ℚ) (el : ℚ) (tns : List Nat),
      ∀ x ∈ (trimLoop ops env m w el tns ds).2, x ∈ ds := by
  intro ds
  induction ds with
  | nil =>
    intro el tns x hx
    simp only [trimLoop] at hx
    exact absurd hx (List.not_mem_nil x)
  | cons d0 rest ih =>
    intro el tns x hx
    simp only [trimLoop] at hx
    split_ifs at hx with h1 h2
    · exact hx
    · exact List.mem_cons_of_mem d0 (ih _ _ x hx)
    · exact hx

/-- The trim loop pops node indices and distances in lockstep. -/
theorem trimLoop_lengths (ops : GeoOps) (env : Env) (m : ℚ) (w : List Nat) :
    ∀ (ds : List ℚ) (el : ℚ) (tns : List Nat), tns.length = ds.length →
      (trimLoop ops env m w el tns ds).1.length =
        (trimLoop ops env m w el tns ds).2.length := by
  intro ds
  induction ds with
  | nil =>
    intro el tns h
    simp only [trimLoop]
    simpa using h
  | cons d0 rest ih =>
    intro el tns h
    simp only [trimLoop]
    split_ifs with h1 h2
    · exact h
    · refine ih _ _ ?_
      rw [List.length_tail, h]
      rfl
    · exact h

/-- The trim loop never empties the distance list. -/
theorem trimLoop_snd_ne (ops : GeoOps) (env : Env) (m : ℚ) (w : List Nat) :
    ∀ (ds : List ℚ) (el : ℚ) (tns : List Nat), ds ≠ [] →
      (trimLoop ops env m w el tns ds).2 ≠ [] := by
  intro ds
  induction ds with
  | nil => intro el tns h; exact absurd rfl h
  | cons d0 rest ih =>
    intro el tns _
    simp only [trimLoop]
    split_ifs with h1 h2
    · exact List.cons_ne_nil d0 rest
    · exact ih _ _ h1.2
    · exact List.cons_ne_nil d0 rest

/-- The direction loop reduces to the backward pass applied to the
original matched lists (the forward pass's result is discarded). -/
theorem trimBoth_eq (ops : GeoOps) (env : Env) (m : ℚ) (w : List Nat)
    (mn : List Nat) (md : List ℚ) :
    trimBoth ops env m w mn md =
      ((trimLoop ops env m w 0 mn.reverse md.reverse).1.reverse,
       (trimLoop ops env m w 0 mn.reverse md.reverse).2.reverse) := by
  simp [trimBoth]

/-- Distances surviving the trim phase are among the scanned distances. -/
theorem trimPhase_snd_subset (ops : GeoOps) (env : Env) (m : ℚ) (w : List Nat)
    (te : Bool) (mn : List Nat) (md : List ℚ) :
    ∀ x ∈ (trimPhase ops env m w te mn md).2, x ∈ md := by
  intro x hx
  simp only [trimPhase] at hx
  split_ifs at hx with h1 h2
  · rw [trimBoth_eq] at hx
    have := List.mem_reverse.1 hx
    have := trimLoop_snd_subset ops env m w md.reverse 0 mn.reverse x this
    exact List.mem_reverse.1 this
  · exact hx
  · exact hx

/-- The trim phase keeps the two lists the same length. -/
theorem trimPhase_lengths (ops : GeoOps) (env : Env) (m : ℚ) (w : List Nat)
    (te : Bool) (mn : List Nat) (md : List ℚ) (h : mn.length = md.length) :
    (trimPhase ops env m w te mn md).1.length =
      (trimPhase ops env m w te mn md).2.length := by
  simp only [trimPhase]
  split_ifs with h1 h2
  · rw [trimBoth_eq]
    simp only [List.length_reverse]
    exact trimLoop_lengths ops env m w md.reverse 0 mn.reverse (by simpa using h)
  · exact h
  · exact h

/-- The trim phase keeps a nonempty matched-node list nonempty. -/
theorem trimPhase_fst_ne (ops : GeoOps) (env : Env) (m : ℚ) (w : List Nat)
    (te : Bool) (mn : List Nat) (md : List ℚ) (h : mn.length = md.length)
    (hne : mn ≠ []) :
    (trimPhase ops env m w te mn md).1 ≠ [] := by
  have hmd : md ≠ [] := by
    intro h0
    rw [h0] at h
    exact hne (List.length_eq_zero.1 (by simpa using h))
  simp only [trimPhase]
  split_ifs with h1 h2
  · rw [trimBoth_eq]
    intro h0
    have h2' : (trimLoop ops env m w 0 mn.reverse md.reverse).1 = [] := by
      simpa using congrArg List.reverse h0
    have hlen := trimLoop_lengths ops env m w md.reverse 0 mn.reverse (by simpa using h)
    rw [h2'] at hlen
    exact trimLoop_snd_ne ops env m w md.reverse 0 mn.reverse (by simpa using hmd)
      (List.length_eq_zero.1 (by simpa using hlen.symm))
  · exact hne
  · exact hne

/-- A nonempty list of rationals all strictly below m has sum strictly
below m times its length. -/
theorem list_sum_lt_mul (l : List ℚ) (m : ℚ) (hne : l ≠ [])
    (h : ∀ x ∈ l, x < m) : l.sum < m * (l.length : ℚ) := by
  induction l with
  | nil => exact absurd rfl hne
  | cons a t ih =>
    rcases eq_or_ne t [] with rfl | ht
    · simpa using h a (by simp)
    · have h1 := ih ht (fun x hx => h x (List.mem_cons_of_mem a hx))
      have h2 := h a (List.mem_cons_self a t)
      simp only [List.sum_cons, List.length_cons]
      push_cast
      linarith

/-- Claim C9: the average distance match_ways returns is None exactly
when its matched-node list is empty; when the list is nonempty every
recorded per-point distance is below the margin, so the returned average
is strictly below the margin. -/
theorem C9_match_ways_average (ops : GeoOps) (env : Env) (way1 way2 : Way)
    (s e : Nat) (m : ℚ) (te : Bool) :
    ((match_ways ops env way1 way2 s e m te).1 = none ↔
      (match_ways ops env way1 way2 s e m te).2 = []) ∧
    ((match_ways ops env way1 way2 s e m te).2 ≠ [] →
      ∃ a, (match_ways ops env way1 way2 s e m te).1 = some a ∧ a < m) := by
  have hscan := matchScan_snd_lt ops env way1 way2 s e m
  set matched := matchScan ops env way1 way2 s e m with hmdef
  set tp := trimPhase ops env m way1.nodes te (matched.map Prod.fst)
    (matched.map Prod.snd) with htpdef
  have hlen : tp.1.length = tp.2.length := by
    rw [htpdef]
    exact trimPhase_lengths ops env m way1.nodes te _ _ (by simp)
  have hmem : ∀ x ∈ tp.2, x < m := by
    intro x hx
    have hx2 : x ∈ matched.map Prod.snd := by
      rw [htpdef] at hx
      exact trimPhase_snd_subset ops env m way1.nodes te _ _ x hx
    rcases List.mem_map.1 hx2 with ⟨p, hp, rfl⟩
    exact hscan p hp
  have hmw : match_ways ops env way1 way2 s e m te =
      if 0 < tp.1.length then (some (tp.2.sum / (tp.1.length : ℚ)), tp.1)
      else (none, tp.1) := rfl
  rw [hmw]
  by_cases hpos : 0 < tp.1.length
  · rw [if_pos hpos]
    have hne1 : tp.1 ≠ [] := by
      intro h0
      rw [h0] at hpos
      exact absurd hpos (by simp)
    constructor
    · constructor
      · intro h; exact absurd h (by simp)
      · intro h; exact absurd h hne1
    · intro _
      refine ⟨_, rfl, ?_⟩
      have hne2 : tp.2 ≠ [] := by
        intro h0
        rw [h0] at hlen
        exact hne1 (List.length_eq_zero.1 (by simpa using hlen))
      have hsum := list_sum_lt_mul tp.2 m hne2 hmem
      have hposq : 0 < (tp.1.length : ℚ) := by exact_mod_cast hpos
      rw [div_lt_iff hposq, hlen]
      linarith
  · rw [if_neg hpos]
    have h1 : tp.1 = [] := by
      rcases List.eq_nil_or_concat tp.1 with h | ⟨_, _, h⟩
      · exact h
      · exfalso
        apply hpos
        rw [h]
        simp
    constructor
    · simp [h1]
    · intro h; exact absurd h1 h

/-- Witness for C9_match_ways_average at the identical two-node ways. -/
theorem C9_match_ways_average_witness :
    ((match_ways ops0 envA wNvdbA wOsmA 0 1 margin false).1 = none ↔
      (match_ways ops0 envA wNvdbA wOsmA 0 1 margin false).2 = []) ∧
    ((match_ways ops0 envA wNvdbA wOsmA 0 1 margin false).2 ≠ [] →
      ∃ a, (match_ways ops0 envA wNvdbA wOsmA 0 1 margin false).1 = some a ∧
        a < margin) :=
  C9_match_ways_average ops0 envA wNvdbA wOsmA 0 1 margin false

/-- If the candidate fold yields some id that the accumulator did not
already hold, that id is a list entry passing both directions of the
bidirectional match test. -/
theorem findBest_aux (ops : GeoOps) (env : Env) (osm_way : Way) :
    ∀ (l : List (Nat × Way)) (acc : Option Nat × ℚ) (n : Nat),
      (l.foldl (findBestStep ops env osm_way) acc).1 = some n →
      acc.1 = some n ∨
      ∃ nvdb_way, (n, nvdb_way) ∈ l ∧ forwardOK ops env osm_way nvdb_way ∧
        reverseOK ops env osm_way nvdb_way := by
  intro l
  induction l with
  | nil => intro acc n h; exact Or.inl h
  | cons p rest ih =>
    intro acc n h
    rw [List.foldl_cons] at h
    rcases ih _ n h with h1 | ⟨nw, hmem, hf, hr⟩
    · by_cases hc : candidateFilter osm_way p.2 = true
      · rw [findBestStep, if_pos hc] at h1
        simp only [findBestInner] at h1
        split_ifs at h1 with hcond1 hcond2
        · cases h1
          exact Or.inr ⟨p.2, List.mem_cons_self p rest,
            ⟨hcond1.1, hcond1.2.2⟩, ⟨hcond2.1, hcond2.2.1, hcond2.2.2⟩⟩
        · exact Or.inl h1
        · exact Or.inl h1
      · rw [findBestStep, if_neg hc] at h1
        exact Or.inl h1
    · exact Or.inr ⟨nw, List.mem_cons_of_mem p hmem, hf, hr⟩

/-- The component view of eraseClaim on the OSM side. -/
theorem eraseClaim_osm (st : MatchState) (o1 n1 o : Nat) :
    (eraseClaim st o1 n1).osmMatch o = if o = o1 then none else st.osmMatch o := rfl

/-- The component view of addClaim on the OSM side. -/
theorem addClaim_osm (st : MatchState) (o1 n1 : Nat) (d : ℚ) (o : Nat) :
    (addClaim st o1 n1 d).osmMatch o = if o = o1 then some n1 else st.osmMatch o := rfl

/-- A forward reference present after conflict resolution was either
present before or is the just-stored claim. -/
theorem resolveClaim_osm_cases (st : MatchState) (o0 n0 : Nat) (d : ℚ) (o n : Nat)
    (h : (resolveClaim st o0 n0 d).osmMatch o = some n) :
    st.osmMatch o = some n ∨ (o = o0 ∧ n = n0) := by
  rcases hm : st.nvdbMatch n0 with _ | ⟨old, oldd⟩
  · have e : resolveClaim st o0 n0 d = addClaim st o0 n0 d := by
      simp only [resolveClaim, hm]
    rw [e, addClaim_osm] at h
    split_ifs at h with ho
    · cases h; exact Or.inr ⟨ho, rfl⟩
    · exact Or.inl h
  · by_cases hlt : oldd > d
    · have e : resolveClaim st o0 n0 d = addClaim (eraseClaim st old n0) o0 n0 d := by
        simp only [resolveClaim, hm, if_pos hlt]
        simp [eraseClaim]
      rw [e, addClaim_osm] at h
      split_ifs at h with ho
      · cases h; exact Or.inr ⟨ho, rfl⟩
      · rw [eraseClaim_osm] at h
        split_ifs at h with ho1
        exact Or.inl h
    · have e : resolveClaim st o0 n0 d = st := by
        simp only [resolveClaim, hm, if_neg hlt]
      rw [e] at h
      exact Or.inl h

/-- A forward reference present after storeMatch was either present
before or is the just-stored claim, in any command. -/
theorem storeMatch_osm_cases (command : String) (st : MatchState)
    (o0 n0 : Nat) (d : ℚ) (o n : Nat)
    (h : (storeMatch command st o0 n0 d).osmMatch o = some n) :
    st.osmMatch o = some n ∨ (o = o0 ∧ n = n0) := by
  rw [storeMatch] at h
  split_ifs at h with h1 h2
  · exact resolveClaim_osm_cases st o0 n0 d o n h
  · simp only at h
    split_ifs at h with ho
    · cases h; exact Or.inr ⟨ho, rfl⟩
    · exact Or.inl h
  · exact Or.inl h

/-- Invariant of merge pass 1: every stored forward reference is a good
pair (both ways in their lists, both match directions succeeded). -/
theorem mergePass1_good_aux (command : String) (ops : GeoOps) (env : Env)
    (osm_list nvdb_list : List (Nat × Way)) :
    ∀ (l : List (Nat × Way)) (st : MatchState),
      (∀ p ∈ l, p ∈ osm_list) →
      (∀ o n, st.osmMatch o = some n → goodPair ops env osm_list nvdb_list o n) →
      ∀ o n, (l.foldl (mergeStep command ops env nvdb_list) st).osmMatch o = some n →
        goodPair ops env osm_list nvdb_list o n := by
  intro l
  induction l with
  | nil => intro st _ hst o n h; exact hst o n h
  | cons p rest ih =>
    intro st hsub hst o n h
    rw [List.foldl_cons] at h
    refine ih _ (fun q hq => hsub q (List.mem_cons_of_mem p hq)) ?_ o n h
    intro o2 n2 h2
    rw [mergeStep] at h2
    split_ifs at h2 with helig
    · rcases hfb : findBest ops env p.2 nvdb_list with ⟨ob, bd⟩
      rw [hfb] at h2
      cases ob with
      | none => exact hst o2 n2 h2
      | some bid =>
        rcases storeMatch_osm_cases command st p.1 bid bd o2 n2 h2 with hold | ⟨ho2, hn2⟩
        · exact hst o2 n2 hold
        · rw [ho2, hn2]
          have hfb1 : (findBest ops env p.2 nvdb_list).1 = some bid := by rw [hfb]
          rw [findBest] at hfb1
          rcases findBest_aux ops env p.2 nvdb_list (none, 99999) bid hfb1 with
            habs | ⟨nw, hmem, hf, hr⟩
          · exact absurd habs (by simp)
          · exact ⟨p.2, nw, by simpa using hsub p (List.mem_cons_self p rest),
              hmem, hf, hr⟩
    · exact hst o2 n2 h2

/-- Claim C1: in the replace, offset and tag modes, every match recorded
by merge_highways pass 1 passed both the forward test (at least
min_nodes matched NVDB points, spanned partial length above match_factor
of the NVDB way's length) and the reverse test (at least min_nodes
matched OSM points, average distance under the margin, spanned partial
length above match_factor of the OSM way's length): no accepted match is
one-sided. -/
theorem C1_bidirectional_match (command : String) (ops : GeoOps) (env : Env)
    (osm_list nvdb_list : List (Nat × Way))
    (hcmd : command = "replace" ∨ command = "offset" ∨ command = "tag")
    (o n : Nat)
    (hrec : (mergePass1 command ops env osm_list nvdb_list).osmMatch o = some n) :
    goodPair ops env osm_list nvdb_list o n := by
  clear hcmd
  rw [mergePass1] at hrec
  exact mergePass1_good_aux command ops env osm_list nvdb_list osm_list _
    (fun p hp => hp) (fun o2 n2 h2 => absurd h2 (by simp)) o n hrec

/-- Witness for C1_bidirectional_match: one OSM way and one identical
NVDB way, matched in replace mode. -/
theorem C1_bidirectional_match_witness :
    goodPair ops0 envA [(1, wOsmA)] [(11, wNvdbA)] 1 11 :=
  C1_bidirectional_match "replace" ops0 envA [(1, wOsmA)] [(11, wNvdbA)]
    (Or.inl rfl) 1 11 (by decide)

/-- Adding a claim between an unmatched OSM way and an unclaimed NVDB
way preserves the partial bijection. -/
theorem addClaim_bij (st : MatchState) (o0 n0 : Nat) (d : ℚ)
    (hbij : bijectiveState st) (ho : st.osmMatch o0 = none)
    (hn : st.nvdbMatch n0 = none) : bijectiveState (addClaim st o0 n0 d) := by
  intro o n
  by_cases h1 : o = o0 <;> by_cases h2 : n = n0
  · subst h1; subst h2
    constructor
    · intro _
      exact ⟨d, by simp [addClaim]⟩
    · intro _
      simp [addClaim]
  · subst h1
    constructor
    · intro h
      have h' : some n0 = some n := by simpa [addClaim] using h
      cases h'
      exact absurd rfl h2
    · rintro ⟨d2, hd2⟩
      have hd2' : st.nvdbMatch n = some (o, d2) := by
        simpa [addClaim, h2] using hd2
      have hcontra := (hbij o n).2 ⟨d2, hd2'⟩
      rw [ho] at hcontra
      exact absurd hcontra (by simp)
  · subst h2
    constructor
    · intro h
      have h' : st.osmMatch o = some n := by simpa [addClaim, h1] using h
      rcases (hbij o n).1 h' with ⟨d2, hd2⟩
      rw [hn] at hd2
      exact absurd hd2 (by simp)
    · rintro ⟨d2, hd2⟩
      have h' : some (o0, d) = some (o, d2) := by simpa [addClaim] using hd2
      cases h'
      exact absurd rfl h1
  · constructor
    · intro h
      have h' : st.osmMatch o = some n := by simpa [addClaim, h1] using h
      rcases (hbij o n).1 h' with ⟨d2, hd2⟩
      exact ⟨d2, by simpa [addClaim, h2] using hd2⟩
    · rintro ⟨d2, hd2⟩
      have hd2' : st.nvdbMatch n = some (o, d2) := by simpa [addClaim, h2] using hd2
      have h' := (hbij o n).2 ⟨d2, hd2'⟩
      simpa [addClaim, h1] using h'

/-- Erasing a stored claim pair preserves the partial bijection. -/
theorem eraseClaim_bij (st : MatchState) (o1 n1 : Nat) (d1 : ℚ)
    (hbij : bijectiveState st) (hpair : st.nvdbMatch n1 = some (o1, d1)) :
    bijectiveState (eraseClaim st o1 n1) := by
  have hosm : st.osmMatch o1 = some n1 := (hbij o1 n1).2 ⟨d1, hpair⟩
  intro o n
  by_cases h1 : o = o1 <;> by_cases h2 : n = n1
  · subst h1; subst h2
    constructor
    · intro h
      exact absurd h (by simp [eraseClaim])
    · rintro ⟨d2, hd2⟩
      exact absurd hd2 (by simp [eraseClaim])
  · subst h1
    constructor
    · intro h
      exact absurd h (by simp [eraseClaim])
    · rintro ⟨d2, hd2⟩
      have hd2' : st.nvdbMatch n = some (o, d2) := by
        simpa [eraseClaim, h2] using hd2
      have h' := (hbij o n).2 ⟨d2, hd2'⟩
      rw [hosm] at h'
      cases h'
      exact absurd rfl h2
  · subst h2
    constructor
    · intro h
      have h' : st.osmMatch o = some n := by simpa [eraseClaim, h1] using h
      rcases (hbij o n).1 h' with ⟨d2, hd2⟩
      rw [hpair] at hd2
      cases hd2
      exact absurd rfl h1
    · rintro ⟨d2, hd2⟩
      exact absurd hd2 (by simp [eraseClaim])
  · constructor
    · intro h
      have h' : st.osmMatch o = some n := by simpa [eraseClaim, h1] using h
      rcases (hbij o n).1 h' with ⟨d2, hd2⟩
      exact ⟨d2, by simpa [eraseClaim, h2] using hd2⟩
    · rintro ⟨d2, hd2⟩
      have hd2' : st.nvdbMatch n = some (o, d2) := by simpa [eraseClaim, h2] using hd2
      have h' := (hbij o n).2 ⟨d2, hd2'⟩
      simpa [eraseClaim, h1] using h'

/-- Conflict resolution preserves the partial bijection when the new
claimant is so far unmatched. -/
theorem resolveClaim_bij (st : MatchState) (o0 n0 : Nat) (d : ℚ)
    (hbij : bijectiveState st) (ho : st.osmMatch o0 = none) :
    bijectiveState (resolveClaim st o0 n0 d) := by
  rcases hm : st.nvdbMatch n0 with _ | ⟨old, oldd⟩
  · have e : resolveClaim st o0 n0 d = addClaim st o0 n0 d := by
      simp only [resolveClaim, hm]
    rw [e]
    exact addClaim_bij st o0 n0 d hbij ho hm
  · by_cases hlt : oldd > d
    · have e : resolveClaim st o0 n0 d = addClaim (eraseClaim st old n0) o0 n0 d := by
        simp only [resolveClaim, hm, if_pos hlt]
        simp [eraseClaim]
      rw [e]
      have hbij2 := eraseClaim_bij st old n0 oldd hbij hm
      have ho2 : (eraseClaim st old n0).osmMatch o0 = none := by
        rw [eraseClaim_osm]
        split_ifs
        · rfl
        · exact ho
      have hn2 : (eraseClaim st old n0).nvdbMatch n0 = none := by
        simp [eraseClaim]
      exact addClaim_bij _ o0 n0 d hbij2 ho2 hn2
    · have e : resolveClaim st o0 n0 d = st := by
        simp only [resolveClaim, hm, if_neg hlt]
      rw [e]
      exact hbij

/-- Conflict resolution never creates a forward reference for any OSM
way other than the new claimant. -/
theorem resolveClaim_osm_none (st : MatchState) (o0 n0 : Nat) (d : ℚ) (o : Nat)
    (ho : st.osmMatch o = none) (hne : o ≠ o0) :
    (resolveClaim st o0 n0 d).osmMatch o = none := by
  rcases hm : st.nvdbMatch n0 with _ | ⟨old, oldd⟩
  · have e : resolveClaim st o0 n0 d = addClaim st o0 n0 d := by
      simp only [resolveClaim, hm]
    rw [e, addClaim_osm, if_neg hne]
    exact ho
  · by_cases hlt : oldd > d
    · have e : resolveClaim st o0 n0 d = addClaim (eraseClaim st old n0) o0 n0 d := by
        simp only [resolveClaim, hm, if_pos hlt]
        simp [eraseClaim]
      rw [e, addClaim_osm, if_neg hne, eraseClaim_osm]
      split_ifs
      · rfl
      · exact ho
    · have e : resolveClaim st o0 n0 d = st := by
        simp only [resolveClaim, hm, if_neg hlt]
      rw [e]
      exact ho

/-- Fold invariant for the replace/offset modes: starting from a
bijective state in which the remaining OSM ways are unmatched, pass 1
keeps the cross references bijective. -/
theorem mergePass1_bij_aux (command : String) (ops : GeoOps) (env : Env)
    (nvdb_list : List (Nat × Way))
    (hcmd : command = "replace" ∨ command = "offset") :
    ∀ (l : List (Nat × Way)) (st : MatchState),
      bijectiveState st →
      (∀ p ∈ l, st.osmMatch p.1 = none) →
      (l.map Prod.fst).Nodup →
      bijectiveState (l.foldl (mergeStep command ops env nvdb_list) st) := by
  intro l
  induction l with
  | nil => intro st hb _ _; exact hb
  | cons p rest ih =>
    intro st hb hnone hnd
    have hnd1 : p.1 ∉ rest.map Prod.fst := (List.nodup_cons.1 (by simpa using hnd)).1
    have hnd2 : (rest.map Prod.fst).Nodup := (List.nodup_cons.1 (by simpa using hnd)).2
    rw [List.foldl_cons]
    have hstep_bij : bijectiveState (mergeStep command ops env nvdb_list st p) := by
      rw [mergeStep]
      split_ifs with helig
      · rcases hfb : findBest ops env p.2 nvdb_list with ⟨ob, bd⟩
        cases ob with
        | none => exact hb
        | some bid =>
          simp only [storeMatch]
          rw [if_pos hcmd]
          exact resolveClaim_bij st p.1 bid bd hb (hnone p (List.mem_cons_self p rest))
      · exact hb
    have hstep_none : ∀ q ∈ rest,
        (mergeStep command ops env nvdb_list st p).osmMatch q.1 = none := by
      intro q hq
      have hqne : q.1 ≠ p.1 := by
        intro he
        exact hnd1 (he ▸ List.mem_map_of_mem Prod.fst hq)
      rw [mergeStep]
      split_ifs with helig
      · rcases hfb : findBest ops env p.2 nvdb_list with ⟨ob, bd⟩
        cases ob with
        | none => exact hnone q (List.mem_cons_of_mem p hq)
        | some bid =>
          simp only [storeMatch]
          rw [if_pos hcmd]
          exact resolveClaim_osm_none st p.1 bid bd q.1
            (hnone q (List.mem_cons_of_mem p hq)) hqne
      · exact hnone q (List.mem_cons_of_mem p hq)
    exact ih _ hstep_bij hstep_none hnd2

/-- Claim C10: at the end of matching pass 1 in the replace and offset
modes, the stored cross references form a partial bijection: an OSM way
carries nvdb_id n exactly when NVDB way n carries its osm_id, so each
side is claimed at most once. -/
theorem C10_partial_bijection (command : String) (ops : GeoOps) (env : Env)
    (osm_list nvdb_list : List (Nat × Way))
    (hcmd : command = "replace" ∨ command = "offset")
    (hnd : (osm_list.map Prod.fst).Nodup) :
    bijectiveState (mergePass1 command ops env osm_list nvdb_list) := by
  have hinit : bijectiveState ⟨fun _ => none, fun _ => none⟩ := by
    intro o n
    constructor
    · intro h
      exact absurd h (by simp)
    · rintro ⟨d, hd⟩
      exact absurd hd (by simp)
  rw [mergePass1]
  exact mergePass1_bij_aux command ops env nvdb_list hcmd osm_list _ hinit
    (fun p _ => rfl) hnd

/-- Witness for C10_partial_bijection at the identical-ways instance in
replace mode. -/
theorem C10_partial_bijection_witness :
    bijectiveState (mergePass1 "replace" ops0 envA [(1, wOsmA)] [(11, wNvdbA)]) :=
  C10_partial_bijection "replace" ops0 envA [(1, wOsmA)] [(11, wNvdbA)]
    (Or.inl rfl) (by decide)

end HighwayMerge
